import Mathlib

/-!
Verification of the appointment-slot availability core of the
PC-Technician-Booking repository.

The embedding follows the TypeScript source:
* `generateTimeSlots` embeds the function of the same name: times of day are
  counted in minutes since local midnight (the source parses an `"HH:MM"`
  string into `hour * 60 + minute` and formats each emitted slot back into an
  `"HH:MM"` string; re-parsing that string inside `updateAvailableTimeSlots`
  recovers exactly the minute count, so slots are modelled as minute counts).
* Instants (JavaScript `Date.getTime()` values) are modelled as integers,
  milliseconds since an arbitrary epoch, in a fixed-offset local timezone
  (`setHours(h, m, 0, 0)` on a date whose local midnight is `M` yields
  `M + (h * 60 + m) * 60000`).
* A calendar date handed to the calendar callbacks is modelled by the three
  observations the source makes of it: its local-midnight instant
  (`setHours(0,0,0,0)`), its weekday ordinal (`getDay()`), and its
  `YYYY-MM-DD` string (`formatDateToYYYYMMDD`).
* `sendSMS` and `handleSubmit` are effect-level embeddings: the outcome of the
  edge-function call (resp. insert / SMS dispatch) is an explicit parameter
  and the function computes the structured result (resp. list of emitted
  user-visible actions) the source produces for that outcome.
-/

namespace PCBooking

/-- The loop body of `generateTimeSlots`:
`for (let minutes = startMinutes; minutes <= endMinutes; minutes += 60)`,
collecting the visited minute counts in order. The structural fuel argument
only bounds the number of iterations; `slotsFrom` supplies enough of it, so
the loop always stops by its own exit test (the counter grows by 60 per
iteration while the fuel drops by 1). -/
def slotsFromAux : Nat → Nat → Nat → List Nat
  | 0, _, _ => []
  | fuel + 1, minutes, endMinutes =>
    if minutes ≤ endMinutes then
      minutes :: slotsFromAux fuel (minutes + 60) endMinutes
    else []

/-- The slot-collecting loop of `generateTimeSlots`, starting the counter at
`minutes` with sufficient fuel. -/
def slotsFrom (minutes endMinutes : Nat) : List Nat :=
  slotsFromAux (endMinutes + 1 - minutes) minutes endMinutes

theorem slotsFromAux_of_gt (f : Nat) {m e : Nat} (h : e < m) :
    slotsFromAux f m e = [] := by
  cases f with
  | zero => rfl
  | succ f => simp [slotsFromAux, Nat.not_le.mpr h]

theorem slotsFromAux_congr (e : Nat) :
    ∀ f1 f2 m : Nat, e + 1 ≤ m + f1 → e + 1 ≤ m + f2 →
      slotsFromAux f1 m e = slotsFromAux f2 m e := by
  intro f1
  induction f1 with
  | zero =>
    intro f2 m h1 _
    rw [slotsFromAux_of_gt 0 (by omega), slotsFromAux_of_gt f2 (by omega)]
  | succ f ih =>
    intro f2 m h1 h2
    by_cases hme : m ≤ e
    · cases f2 with
      | zero => omega
      | succ g =>
        simp only [slotsFromAux, if_pos hme]
        rw [ih g (m + 60) (by omega) (by omega)]
    · rw [slotsFromAux_of_gt _ (by omega), slotsFromAux_of_gt _ (by omega)]

/-- A time of day as the source parses it from `"HH:MM"`:
`startHour * 60 + startMinute`. -/
def timeToMinutes (t : Nat × Nat) : Nat := t.1 * 60 + t.2

/-- `generateTimeSlots(startTime, endTime)` (src/unnamed/part_001 lines
1408-1423), with the two `"HH:MM"` arguments already split into
(hour, minute) pairs and each emitted slot kept as its minute count. -/
def generateTimeSlots (startTime endTime : Nat × Nat) : List Nat :=
  slotsFrom (timeToMinutes startTime) (timeToMinutes endTime)

theorem slotsFrom_of_le {m e : Nat} (h : m ≤ e) :
    slotsFrom m e = m :: slotsFrom (m + 60) e := by
  have h1 : e + 1 - m = (e - m) + 1 := by omega
  rw [slotsFrom, h1]
  simp only [slotsFromAux, if_pos h, List.cons.injEq, true_and]
  rw [slotsFrom]
  exact slotsFromAux_congr e (e - m) (e + 1 - (m + 60)) (m + 60)
    (by omega) (by omega)

theorem slotsFrom_of_gt {m e : Nat} (h : e < m) : slotsFrom m e = [] :=
  slotsFromAux_of_gt _ h

theorem slotsFromAux_chain (e : Nat) :
    ∀ f m : Nat, List.Chain' (fun x y => y = x + 60) (slotsFromAux f m e) := by
  intro f
  induction f with
  | zero => intro m; simp [slotsFromAux]
  | succ f ih =>
    intro m
    by_cases hme : m ≤ e
    · simp only [slotsFromAux, if_pos hme]
      refine List.chain'_cons'.mpr ⟨?_, ih (m + 60)⟩
      intro y hy
      cases f with
      | zero => simp [slotsFromAux] at hy
      | succ g =>
        by_cases h2 : m + 60 ≤ e
        · simp only [slotsFromAux, if_pos h2, List.head?_cons,
            Option.mem_def, Option.some.injEq] at hy
          omega
        · simp [slotsFromAux, if_neg h2] at hy
    · simp [slotsFromAux, if_neg hme]

theorem slotsFrom_chain (m e : Nat) :
    List.Chain' (fun x y => y = x + 60) (slotsFrom m e) :=
  slotsFromAux_chain e (e + 1 - m) m

theorem slotsFromAux_mem (e : Nat) :
    ∀ f m x : Nat, e + 1 ≤ m + f →
      (x ∈ slotsFromAux f m e ↔ m ≤ x ∧ x ≤ e ∧ (x - m) % 60 = 0) := by
  intro f
  induction f with
  | zero =>
    intro m x h
    simp only [slotsFromAux, List.not_mem_nil, false_iff]
    omega
  | succ f ih =>
    intro m x h
    by_cases hme : m ≤ e
    · simp only [slotsFromAux, if_pos hme, List.mem_cons]
      rw [ih (m + 60) x (by omega)]
      omega
    · simp only [slotsFromAux, if_neg hme, List.not_mem_nil, false_iff]
      omega

theorem slotsFrom_mem (m e x : Nat) :
    x ∈ slotsFrom m e ↔ m ≤ x ∧ x ≤ e ∧ (x - m) % 60 = 0 :=
  slotsFromAux_mem e (e + 1 - m) m x (by omega)

theorem slotsFromAux_getLast (e : Nat) :
    ∀ f m : Nat, e + 1 ≤ m + f → m ≤ e →
      (slotsFromAux f m e).getLast? = some (m + 60 * ((e - m) / 60)) := by
  intro f
  induction f with
  | zero => intro m h1 h2; omega
  | succ f ih =>
    intro m h1 h2
    simp only [slotsFromAux, if_pos h2]
    by_cases h3 : m + 60 ≤ e
    · have hrec := ih (m + 60) (by omega) h3
      cases hl : slotsFromAux f (m + 60) e with
      | nil => rw [hl] at hrec; simp at hrec
      | cons b t =>
        rw [List.getLast?_cons_cons, ← hl, hrec]
        have h4 : (e - m) / 60 = (e - (m + 60)) / 60 + 1 := by omega
        rw [h4]; ring_nf
    · rw [slotsFromAux_of_gt f (by omega)]
      have h4 : (e - m) / 60 = 0 := by omega
      simp [h4]

theorem slotsFrom_getLast (m e : Nat) (h : m ≤ e) :
    (slotsFrom m e).getLast? = some (m + 60 * ((e - m) / 60)) :=
  slotsFromAux_getLast e (e + 1 - m) m (by omega) h

/-- Claim C2: for every pair of times with `workStartTime < workEndTime`, the
Time-Slot Generator produces a non-empty, strictly increasing sequence whose
first element is `workStartTime`, whose consecutive elements differ by exactly
60 minutes, and whose last element is the largest time ≤ `workEndTime`
reachable from `workStartTime` by whole hours; `workEndTime` itself appears
exactly when the difference is a whole number of hours. -/
theorem generateTimeSlots_spec (st et : Nat × Nat)
    (hlt : timeToMinutes st < timeToMinutes et) :
    generateTimeSlots st et ≠ [] ∧
    (generateTimeSlots st et).head? = some (timeToMinutes st) ∧
    List.Chain' (fun x y => y = x + 60) (generateTimeSlots st et) ∧
    (generateTimeSlots st et).Pairwise (· < ·) ∧
    (generateTimeSlots st et).getLast? =
      some (timeToMinutes st +
        60 * ((timeToMinutes et - timeToMinutes st) / 60)) ∧
    timeToMinutes st + 60 * ((timeToMinutes et - timeToMinutes st) / 60) ≤
      timeToMinutes et ∧
    (∀ k : Nat, timeToMinutes st + 60 * k ≤ timeToMinutes et →
      timeToMinutes st + 60 * k ≤
        timeToMinutes st + 60 * ((timeToMinutes et - timeToMinutes st) / 60)) ∧
    (timeToMinutes et ∈ generateTimeSlots st et ↔
      (timeToMinutes et - timeToMinutes st) % 60 = 0) := by
  have hle : timeToMinutes st ≤ timeToMinutes et := Nat.le_of_lt hlt
  have hchain := slotsFrom_chain (timeToMinutes st) (timeToMinutes et)
  refine ⟨?_, ?_, hchain, ?_, ?_, by omega, by intro k hk; omega, ?_⟩
  · rw [generateTimeSlots, slotsFrom_of_le hle]; simp
  · rw [generateTimeSlots, slotsFrom_of_le hle]; rfl
  · exact List.chain'_iff_pairwise.mp (hchain.imp (by omega))
  · exact slotsFrom_getLast _ _ hle
  · rw [generateTimeSlots, slotsFrom_mem]; omega

theorem generateTimeSlots_spec_witness :
    timeToMinutes (9, 0) < timeToMinutes (20, 0) ∧
    (generateTimeSlots (9, 0) (20, 0) ≠ [] ∧
    (generateTimeSlots (9, 0) (20, 0)).head? = some (timeToMinutes (9, 0)) ∧
    List.Chain' (fun x y => y = x + 60) (generateTimeSlots (9, 0) (20, 0)) ∧
    (generateTimeSlots (9, 0) (20, 0)).Pairwise (· < ·) ∧
    (generateTimeSlots (9, 0) (20, 0)).getLast? =
      some (timeToMinutes (9, 0) +
        60 * ((timeToMinutes (20, 0) - timeToMinutes (9, 0)) / 60)) ∧
    timeToMinutes (9, 0) +
        60 * ((timeToMinutes (20, 0) - timeToMinutes (9, 0)) / 60) ≤
      timeToMinutes (20, 0) ∧
    (∀ k : Nat, timeToMinutes (9, 0) + 60 * k ≤ timeToMinutes (20, 0) →
      timeToMinutes (9, 0) + 60 * k ≤
        timeToMinutes (9, 0) +
          60 * ((timeToMinutes (20, 0) - timeToMinutes (9, 0)) / 60)) ∧
    (timeToMinutes (20, 0) ∈ generateTimeSlots (9, 0) (20, 0) ↔
      (timeToMinutes (20, 0) - timeToMinutes (9, 0)) % 60 = 0)) :=
  ⟨by decide, generateTimeSlots_spec (9, 0) (20, 0) (by decide)⟩

/-- Claim C8: for every pair of times with `workStartTime > workEndTime`, the
Time-Slot Generator produces the empty sequence of slots. -/
theorem generateTimeSlots_empty_of_gt (st et : Nat × Nat)
    (hgt : timeToMinutes st > timeToMinutes et) :
    generateTimeSlots st et = [] :=
  slotsFrom_of_gt hgt

theorem generateTimeSlots_empty_of_gt_witness :
    timeToMinutes (20, 0) > timeToMinutes (9, 0) ∧
    generateTimeSlots (20, 0) (9, 0) = [] :=
  ⟨by decide, generateTimeSlots_empty_of_gt (20, 0) (9, 0) (by decide)⟩

/-- The subset of Settings the slot filter reads (§3 of the spec; the
`settings` state initialized at src/unnamed/part_001 lines 1442-1451).
`firstDayOfWeek` and the SMS flag are carried for completeness.
Fields, in order: firstDayOfWeek, disabledWeekdays, disabledDates,
minIntervalHours, workStartTime, workEndTime, maxBookingsPerDay, sendSMS. -/
structure Settings where
  firstDayOfWeek : Nat
  disabledWeekdays : List Nat
  disabledDates : List String
  minIntervalHours : Nat
  workStartTime : Nat × Nat
  workEndTime : Nat × Nat
  maxBookingsPerDay : Option Nat
  sendSMS : Bool

/-- A calendar date as observed by the calendar callbacks: its local-midnight
instant in ms (`new Date(date); setHours(0,0,0,0)`), its weekday ordinal
(`date.getDay()`), and its `YYYY-MM-DD` string (`formatDateToYYYYMMDD date`).
Fields, in order: midnight, weekday, ymd. -/
structure DateView where
  midnight : Int
  weekday : Nat
  ymd : String

/-- `minIntervalMs = settings.minIntervalHours * 60 * 60 * 1000`
(src/unnamed/part_001 line 1536 and line 1711). -/
def minIntervalMsOf (s : Settings) : Nat := s.minIntervalHours * 60 * 60 * 1000

/-- The instant of a time-of-day slot on a date:
`timeToCheck = new Date(selectedDate); timeToCheck.setHours(hours, minutes, 0, 0)`
with `hours * 60 + minutes = t`. -/
def slotInstant (d : DateView) (t : Nat) : Int := d.midnight + (t : Int) * 60000

/-- The Slot Availability Predicate: the filter body of
`updateAvailableTimeSlots` (src/unnamed/part_001 lines 1538-1547) applied to
one candidate instant —
`!bookedSlots.some(b => Math.abs(timeToCheck - b) < minIntervalMs)`. -/
def slotAvailable (bookedSlots : List Int) (minIntervalMs : Nat)
    (instant : Int) : Bool :=
  !(bookedSlots.any (fun b => (instant - b).natAbs < minIntervalMs))

/-- `updateAvailableTimeSlots(selectedDate)` (src/unnamed/part_001 lines
1529-1550): the generated slots of the work window that pass the Slot
Availability Predicate, for the given date and booked-slot snapshot. -/
def updateAvailableTimeSlots (s : Settings) (d : DateView)
    (bookedSlots : List Int) : List Nat :=
  (generateTimeSlots s.workStartTime s.workEndTime).filter
    (fun t => slotAvailable bookedSlots (minIntervalMsOf s) (slotInstant d t))

/-- Claim C1: the Slot Availability Predicate returns available iff every
existing booking instant is at least `minIntervalHours` (in ms) away in
absolute difference; a candidate exactly the interval away is available, one
minute closer is not, and an empty booking list makes every slot available.
(Concrete parts use a 10:00 booking, a 3-hour interval, and 13:00 / 12:59
candidates, all as ms since the day's midnight.) -/
theorem slotAvailable_iff (bookedSlots : List Int) (h : Nat) (t : Int)
    (_hpos : 0 < h) :
    (slotAvailable bookedSlots (h * 60 * 60 * 1000) t = true ↔
      ∀ b ∈ bookedSlots, h * 60 * 60 * 1000 ≤ (t - b).natAbs) ∧
    slotAvailable [] (h * 60 * 60 * 1000) t = true ∧
    slotAvailable [36000000] (3 * 60 * 60 * 1000) 46800000 = true ∧
    slotAvailable [36000000] (3 * 60 * 60 * 1000) 46740000 = false := by
  refine ⟨?_, by simp [slotAvailable], by decide, by decide⟩
  simp [slotAvailable, Nat.not_lt]

theorem slotAvailable_iff_witness :
    0 < 3 ∧
    ((slotAvailable [36000000] (3 * 60 * 60 * 1000) 0 = true ↔
      ∀ b ∈ ([36000000] : List Int),
        3 * 60 * 60 * 1000 ≤ ((0 : Int) - b).natAbs) ∧
    slotAvailable [] (3 * 60 * 60 * 1000) 0 = true ∧
    slotAvailable [36000000] (3 * 60 * 60 * 1000) 46800000 = true ∧
    slotAvailable [36000000] (3 * 60 * 60 * 1000) 46740000 = false) :=
  ⟨by decide, slotAvailable_iff [36000000] 3 0 (by decide)⟩

/-- Rule 1 of `isDateDisabled`: the date's midnight is strictly before
today's midnight (src/unnamed/part_001 lines 1674-1679). -/
def isPastDate (todayMidnight : Int) (d : DateView) : Bool :=
  d.midnight < todayMidnight

/-- Rule 2 of `isDateDisabled`:
`settings.disabledWeekdays.includes(date.getDay())` (lines 1681-1683). -/
def weekdayDisabled (s : Settings) (d : DateView) : Bool :=
  s.disabledWeekdays.contains d.weekday

/-- Rule 3 of `isDateDisabled`:
`settings.disabledDates.includes(formatDateToYYYYMMDD(date))`
(lines 1685-1687). -/
def dateListed (s : Settings) (d : DateView) : Bool :=
  s.disabledDates.contains d.ymd

/-- The count of bookings on a calendar day (lines 1691-1699): booked instants
between the date's 00:00:00.000 and 23:59:59.999 inclusive. -/
def bookingsOnDate (bookedSlots : List Int) (d : DateView) : Nat :=
  (bookedSlots.filter
    (fun b => d.midnight ≤ b && b ≤ d.midnight + 86399999)).length

/-- Rule 4 of `isDateDisabled`: `maxBookingsPerDay` is set and the day's
booking count reaches it (lines 1690-1704). -/
def capReached (s : Settings) (bookedSlots : List Int) (d : DateView) : Bool :=
  match s.maxBookingsPerDay with
  | some mx => bookingsOnDate bookedSlots d ≥ mx
  | none => false

/-- Rule 5 of `isDateDisabled`: `!hasAvailableSlots` — no generated slot of
the work window passes the Slot Availability Predicate on this date
(lines 1706-1725). -/
def noSlotsLeft (s : Settings) (bookedSlots : List Int) (d : DateView) : Bool :=
  !((generateTimeSlots s.workStartTime s.workEndTime).any
    (fun t => slotAvailable bookedSlots (minIntervalMsOf s) (slotInstant d t)))

/-- `isDateDisabled({date})` (src/unnamed/part_001 lines 1673-1726), with
today's midnight (`new Date(); setHours(0,0,0,0)`) made an explicit
parameter; the sequential early-`return true` structure of the source is
kept. -/
def isDateDisabled (s : Settings) (todayMidnight : Int)
    (bookedSlots : List Int) (d : DateView) : Bool :=
  if d.midnight < todayMidnight then true
  else if s.disabledWeekdays.contains d.weekday then true
  else if s.disabledDates.contains d.ymd then true
  else if capReached s bookedSlots d then true
  else noSlotsLeft s bookedSlots d

/-- Claim C3: the Date Disablement Predicate is exactly the disjunction of its
five rules (past date, disabled weekday, disabled date string, day capacity
reached, no available slot left), and the result is independent of the order
in which the rules are evaluated (here: it also equals the fully reversed
disjunction). -/
theorem isDateDisabled_eq_or (s : Settings) (todayMidnight : Int)
    (bookedSlots : List Int) (d : DateView) :
    (isDateDisabled s todayMidnight bookedSlots d =
      (isPastDate todayMidnight d || weekdayDisabled s d || dateListed s d ||
        capReached s bookedSlots d || noSlotsLeft s bookedSlots d)) ∧
    (isDateDisabled s todayMidnight bookedSlots d =
      (noSlotsLeft s bookedSlots d || capReached s bookedSlots d ||
        dateListed s d || weekdayDisabled s d || isPastDate todayMidnight d)) := by
  constructor <;>
  · simp only [isDateDisabled, isPastDate, weekdayDisabled, dateListed]
    by_cases h1 : d.midnight < todayMidnight <;>
      by_cases h2 : d.weekday ∈ s.disabledWeekdays <;>
        by_cases h3 : d.ymd ∈ s.disabledDates <;>
          by_cases h4 : capReached s bookedSlots d = true <;>
            by_cases h5 : noSlotsLeft s bookedSlots d = true <;>
              simp [h1, h2, h3, h4, h5]

/-- Claim C4, counterexample: with `maxBookingsPerDay = 1`, a 3-hour interval,
work hours 09:00-20:00 and a single booking at 09:00 on the candidate day, the
day-capacity rule fires (1 ≥ 1) while the no-slots-left rule does not — the
12:00 slot (720 minutes) is exactly 3 hours from the booking and therefore
still available. This refutes "a date at or over the cap never still has an
available slot". -/
theorem capReached_noSlotsLeft_disagree :
    capReached ⟨1, [], [], 3, (9, 0), (20, 0), some 1, true⟩ [32400000]
        ⟨0, 4, "1970-01-01"⟩ = true ∧
    noSlotsLeft ⟨1, [], [], 3, (9, 0), (20, 0), some 1, true⟩ [32400000]
        ⟨0, 4, "1970-01-01"⟩ = false ∧
    720 ∈ updateAvailableTimeSlots ⟨1, [], [], 3, (9, 0), (20, 0), some 1, true⟩
        ⟨0, 4, "1970-01-01"⟩ [32400000] := by
  refine ⟨by decide, by decide, by decide⟩

/-- Claim C4, amended: there exist settings with `maxBookingsPerDay` set, a
booking snapshot and a candidate date for which the day-capacity rule fires
while the no-slots-left rule does not — a date at or over the per-day cap can
still have an available time slot under the spacing rule, so the claimed
implication does not hold. -/
theorem capReached_not_imp_noSlotsLeft :
    ∃ (s : Settings) (bookedSlots : List Int) (d : DateView),
      capReached s bookedSlots d = true ∧ noSlotsLeft s bookedSlots d = false :=
  ⟨⟨1, [], [], 3, (9, 0), (20, 0), some 1, true⟩, [32400000],
    ⟨0, 4, "1970-01-01"⟩, by decide, by decide⟩

/-- Claim C10: the Slot Availability Predicate compares absolute instants, so
a booking on the previous calendar day can block slots on the next date. With
a booking at 23:00 of day 0 (instant 82800000), a 3-hour interval and work
hours 00:00-01:00, on the next date (midnight 86400000): the 01:00 slot
(60 minutes) is unavailable, the date's available-slot list is empty, and the
whole date is disabled — even though the booking lies entirely within the
previous calendar day. -/
theorem slotAvailable_cross_day :
    ((0 : Int) ≤ 82800000 ∧ (82800000 : Int) ≤ 86399999) ∧
    (⟨86400000, 5, "1970-01-02"⟩ : DateView).midnight = 86400000 ∧
    slotAvailable [82800000] (minIntervalMsOf ⟨1, [], [], 3, (0, 0), (1, 0), none, true⟩)
      (slotInstant ⟨86400000, 5, "1970-01-02"⟩ 60) = false ∧
    updateAvailableTimeSlots ⟨1, [], [], 3, (0, 0), (1, 0), none, true⟩
      ⟨86400000, 5, "1970-01-02"⟩ [82800000] = [] ∧
    isDateDisabled ⟨1, [], [], 3, (0, 0), (1, 0), none, true⟩ 0 [82800000]
      ⟨86400000, 5, "1970-01-02"⟩ = true := by
  refine ⟨by decide, rfl, by decide, by decide, by decide⟩

/-- The phone normalization of `sendSMS` (src/unnamed/part_001 lines
1339-1342): `phone.replace(/\D/g, '')` keeps exactly the decimal digits, and
the `startsWith('+')` guard (for a one-character pattern, the head test)
prepends `'+'` when the filtered string does not already begin with it. -/
def formatPhone (phone : String) : String :=
  let formatted := String.mk (phone.toList.filter Char.isDigit)
  if formatted.toList.head? = some '+' then formatted else "+" ++ formatted

/-- The shape of the edge function's `data` payload as `sendSMS` reads it:
optional `error` and `details` strings, a `success` flag, an optional
`messageId`. Fields, in order: error, details, success, messageId. -/
structure SmsData where
  error : Option String
  details : Option String
  success : Bool
  messageId : Option String

/-- The possible outcomes of `supabase.functions.invoke('send-sms', ...)` as
`sendSMS` distinguishes them: a returned `error` object (with an optional
`message` string), returned `data` (possibly null), or a thrown exception
(an `Error` with a message, or a non-`Error` value). -/
inductive InvokeOutcome where
  | funcError (message : Option String)
  | funcData (d : Option SmsData)
  | thrown (message : Option String)

/-- The structured result `sendSMS` resolves with.
Fields, in order: success, error. -/
structure SmsResult where
  success : Bool
  error : Option String
deriving DecidableEq

/-- JavaScript string truthiness of an optional field: present and
non-empty. -/
def truthyStr : Option String → Bool
  | some s => s ≠ ""
  | none => false

/-- JavaScript `a || dflt` on an optional string `a`: the string itself when
truthy, the fallback otherwise. -/
def jsOrElse (a : Option String) (dflt : String) : String :=
  match a with
  | some s => if s = "" then dflt else s
  | none => dflt

/-- `sendSMS(phone, message)` (src/unnamed/part_001 lines 1334-1383), with
the outcome of the edge-function call an explicit parameter. The first
component of the result is the phone number placed in the request body, the
second the structured result the promise resolves with. -/
def sendSMS (phone : String) (_message : String) (outcome : InvokeOutcome) :
    String × SmsResult :=
  let formattedPhone := formatPhone phone
  let result : SmsResult :=
    match outcome with
    | .funcError msg =>
      ⟨false, some (jsOrElse msg
        "Failed to invoke SMS function. Make sure the Edge Function is deployed.")⟩
    | .funcData none => ⟨false, some "Unexpected response from SMS service"⟩
    | .funcData (some d) =>
      if truthyStr d.error then
        ⟨false, some (jsOrElse d.details (jsOrElse d.error "Failed to send SMS"))⟩
      else if d.success || truthyStr d.messageId then ⟨true, none⟩
      else ⟨false, some "Unexpected response from SMS service"⟩
    | .thrown msg =>
      ⟨false, some (match msg with
        | some s => s
        | none => "Unknown error occurred")⟩
  (formattedPhone, result)

theorem formatPhone_toList (phone : String) :
    (formatPhone phone).toList = '+' :: phone.toList.filter Char.isDigit := by
  rw [formatPhone]
  have hguard : (String.mk (phone.toList.filter Char.isDigit)).toList.head? ≠
      some '+' := by
    intro h
    have hm : ('+') ∈ phone.toList.filter Char.isDigit :=
      List.mem_of_mem_head? h
    have := (List.mem_filter.mp hm).2
    simp [Char.isDigit] at this
  simp only [if_neg hguard]
  simp [String.data_append]

/-- Claim C7: the phone number handed to the Notification Sender starts with
`'+'` and every remaining character is a decimal digit, for every input phone
string (and every message / edge-function outcome). -/
theorem sendSMS_phone_normalized (phone message : String)
    (outcome : InvokeOutcome) :
    ((sendSMS phone message outcome).1).toList.head? = some '+' ∧
    ∀ c ∈ ((sendSMS phone message outcome).1).toList.tail, c.isDigit := by
  have h : (sendSMS phone message outcome).1 = formatPhone phone := rfl
  rw [h, formatPhone_toList]
  exact ⟨rfl, fun c hc => (List.mem_filter.mp hc).2⟩

/-- Claim C9: the dispatched number is exactly `'+'` followed by the digits of
the input in order (every non-digit removed); the filtered string never starts
with `'+'`, so the guard prepends `'+'` on every input; and an input with no
digits yields the bare string `"+"`. -/
theorem formatPhone_eq_plus_digits (phone : String) :
    (formatPhone phone).toList = '+' :: phone.toList.filter Char.isDigit ∧
    (String.mk (phone.toList.filter Char.isDigit)).toList.head? ≠ some '+' ∧
    formatPhone "abc- ()" = "+" := by
  refine ⟨formatPhone_toList phone, ?_, by decide⟩
  intro h
  have hm : ('+') ∈ phone.toList.filter Char.isDigit :=
    List.mem_of_mem_head? h
  have := (List.mem_filter.mp hm).2
  simp [Char.isDigit] at this

/-- Claim C5: `sendSMS` never throws past its boundary — for every phone,
message and edge-function outcome (returned error, error-shaped data,
success-shaped data, null or unexpected data, thrown exception) it resolves
with a structured result that is either success with no error string, or
failure carrying an error string. -/
theorem sendSMS_total_result (phone message : String)
    (outcome : InvokeOutcome) :
    ((sendSMS phone message outcome).2.success = true ∧
      (sendSMS phone message outcome).2.error = none) ∨
    ((sendSMS phone message outcome).2.success = false ∧
      ∃ s, (sendSMS phone message outcome).2.error = some s) := by
  rcases outcome with msg | d | msg
  · exact Or.inr ⟨rfl, _, rfl⟩
  · rcases d with _ | d
    · exact Or.inr ⟨rfl, _, rfl⟩
    · by_cases h1 : truthyStr d.error = true
      · exact Or.inr ⟨by simp [sendSMS, h1],
          jsOrElse d.details (jsOrElse d.error "Failed to send SMS"),
          by simp [sendSMS, h1]⟩
      · by_cases h2 : (d.success || truthyStr d.messageId) = true
        · exact Or.inl ⟨by simp [sendSMS, h1, h2], by simp [sendSMS, h1, h2]⟩
        · exact Or.inr ⟨by simp [sendSMS, h1, h2],
            "Unexpected response from SMS service",
            by simp [sendSMS, h1, h2]⟩
  · exact Or.inr ⟨rfl, _, rfl⟩

/-- The user-visible effects `handleSubmit` can emit, in program order:
the booking insert, a (hypothetical) booking delete — present in the action
alphabet to state that it is never emitted — the success toast, the non-fatal
SMS warning toast, the error toast, the form reset, and the booked-slot
refresh. -/
inductive Action where
  | insertBooking
  | deleteBooking
  | toastSuccess
  | toastWarning
  | toastError
  | resetForm
  | refreshSlots
deriving DecidableEq

/-- The outcome of the awaited `sendSMS(...)` call inside `handleSubmit`:
either the structured result it resolved with, or a thrown exception. -/
inductive SmsCallOutcome where
  | returned (r : SmsResult)
  | thrown (message : Option String)

/-- The SMS dispatch failed: the result has `success: false`, or the call
threw. -/
def smsFailed : SmsCallOutcome → Bool
  | .returned r => !r.success
  | .thrown _ => true

/-- `handleSubmit` (src/unnamed/part_001 lines 1560-1663) as the ordered list
of user-visible effects it emits, given: whether a date and time were selected
(`hasDateTime`), whether the insert succeeded (`insertOk`), the `sendSMS`
setting (`smsEnabled`), and the outcome of the SMS dispatch. An insert error
is thrown to the surrounding catch, which shows the error toast; an SMS
failure or exception only adds the warning toast, after which the success path
(form reset, booked-slot refresh) continues unconditionally. -/
def handleSubmit (hasDateTime insertOk smsEnabled : Bool)
    (sms : SmsCallOutcome) : List Action :=
  if hasDateTime = false then [.toastError]
  else if insertOk = false then [.insertBooking, .toastError]
  else
    [Action.insertBooking, Action.toastSuccess] ++
    (if smsEnabled then
      match sms with
      | .returned r => if r.success then [] else [.toastWarning]
      | .thrown _ => [.toastWarning]
    else []) ++
    [Action.resetForm, Action.refreshSlots]

/-- Claim C6: in every submission run where the insert succeeds and the SMS
dispatch fails (unsuccessful result or exception), the booking is never
reverted or deleted, the success path still completes (form reset and
booked-slot refresh), and the failure surfaces only as a non-fatal warning —
no error toast. -/
theorem handleSubmit_sms_failure_nonfatal (sms : SmsCallOutcome)
    (hfail : smsFailed sms = true) :
    Action.deleteBooking ∉ handleSubmit true true true sms ∧
    Action.resetForm ∈ handleSubmit true true true sms ∧
    Action.refreshSlots ∈ handleSubmit true true true sms ∧
    Action.toastWarning ∈ handleSubmit true true true sms ∧
    Action.toastError ∉ handleSubmit true true true sms := by
  rcases sms with r | msg
  · have hr : r.success = false := by
      simpa [smsFailed] using hfail
    simp [handleSubmit, hr]
  · simp [handleSubmit]

theorem handleSubmit_sms_failure_nonfatal_witness :
    smsFailed (.returned ⟨false, some "Failed to send SMS"⟩) = true ∧
    (Action.deleteBooking ∉
      handleSubmit true true true (.returned ⟨false, some "Failed to send SMS"⟩) ∧
    Action.resetForm ∈
      handleSubmit true true true (.returned ⟨false, some "Failed to send SMS"⟩) ∧
    Action.refreshSlots ∈
      handleSubmit true true true (.returned ⟨false, some "Failed to send SMS"⟩) ∧
    Action.toastWarning ∈
      handleSubmit true true true (.returned ⟨false, some "Failed to send SMS"⟩) ∧
    Action.toastError ∉
      handleSubmit true true true (.returned ⟨false, some "Failed to send SMS"⟩)) :=
  ⟨by decide, handleSubmit_sms_failure_nonfatal
    (.returned ⟨false, some "Failed to send SMS"⟩) (by decide)⟩

end PCBooking
